import Mathlib

/-!
Shallow embedding of `trains/storage/helper.py` (the `StorageHelper`
storage-orchestration layer) and proofs about it.

Python strings are modelled as `List Char` (`Str`); external effects
(driver calls, the filesystem) are modelled by explicit parameters and
event traces.
-/

set_option maxHeartbeats 1000000

namespace Storage

/-- Python `str`, modelled as a list of characters. -/
abbrev Str := List Char

/-- Coerce a Lean string literal into the model type. -/
def lit (x : String) : Str := x.data

/-- Model of `StorageHelper._PathSubstitutionRule` (helper.py lines 135-140):
an attrs class with the two prefixes and two separator flags. -/
structure PathSubstitutionRule where
  registered_prefix : Str
  local_prefix : Str
  replace_windows_sep : Bool
  replace_linux_sep : Bool
deriving DecidableEq, Repr

/-- The inner helper `replace_separator(_url, where, sep)` of
`_apply_url_substitutions` (lines 790-791):
`_url[:where] + _url[where:].replace(sep, os.sep)`.  `sep` and `os.sep`
are single characters, so Python's `str.replace` is a character map. -/
def replace_separator (url : Str) (whereIdx : Nat) (sep osSep : Char) : Str :=
  url.take whereIdx ++ (url.drop whereIdx).map (fun c => if c = sep then osSep else c)

/-- The body executed for the first matching rule in
`_apply_url_substitutions` (lines 794-807): replace the first occurrence
of `registered_prefix` (which is at position 0, since the rule matched as
a string prefix) by `local_prefix`, then optionally translate separators
in the part after `local_prefix`. -/
def applyRule (osSep : Char) (r : PathSubstitutionRule) (url : Str) : Str :=
  let u1 := r.local_prefix ++ url.drop r.registered_prefix.length
  let u2 := if r.replace_windows_sep
    then replace_separator u1 r.local_prefix.length '\\' osSep else u1
  if r.replace_linux_sep
    then replace_separator u2 r.local_prefix.length '/' osSep else u2

/-- Model of `StorageHelper._apply_url_substitutions` (lines 788-809): scan the
registered rules in order; the first rule whose `registered_prefix` is a
string prefix of `url` is applied, then the loop `break`s; if no rule
matches the url is returned unchanged.  `osSep` stands for `os.sep`. -/
def apply_url_substitutions (osSep : Char) : List PathSubstitutionRule → Str → Str
  | [], url => url
  | r :: rs, url =>
    if r.registered_prefix.isPrefixOf url then applyRule osSep r url
    else apply_url_substitutions osSep rs url

/-- Model of `StorageHelper._canonize_url` (lines 784-786) just delegates. -/
def canonize_url (osSep : Char) (rules : List PathSubstitutionRule) (url : Str) : Str :=
  apply_url_substitutions osSep rules url

end Storage

namespace Storage

/-- The separator translation the matched rule performs on the remainder
of the url (the part after the replaced prefix). -/
def ruleSepTranslate (osSep : Char) (r : PathSubstitutionRule) (rem : Str) : Str :=
  let m1 := if r.replace_windows_sep
    then rem.map (fun c => if c = '\\' then osSep else c) else rem
  if r.replace_linux_sep
    then m1.map (fun c => if c = '/' then osSep else c) else m1

/-! Section: `upload_from_stream` (helper.py lines 525-550). -/

/-- The retry loop of `upload_from_stream` (lines 530-546), with the
driver call abstracted: `fails i` says whether the `i`-th call to
`upload_object_via_stream` raises, and `endPos i` is the stream position
a failed `i`-th attempt leaves behind (the subsequent `stream.seek(0)`
is a no-op for a non-seekable stream, its exception being swallowed).
Arguments: attempt index `i`, remaining loop iterations `fuel`, current
stream position `pos`.  Returns the stream positions at the start of
each performed attempt and `some i` when attempt `i` succeeded (the
loop `break`s), `none` when every iteration failed. -/
def uploadAttempts (fails : Nat → Bool) (endPos : Nat → Nat) (seekable : Bool) :
    Nat → Nat → Nat → List Nat × Option Nat
  | _, 0, _ => ([], none)
  | i, fuel + 1, pos =>
    if fails i then
      (pos :: (uploadAttempts fails endPos seekable (i + 1) fuel
                (if seekable then 0 else endPos i)).1,
       (uploadAttempts fails endPos seekable (i + 1) fuel
                (if seekable then 0 else endPos i)).2)
    else ([pos], some i)

/-- Model of `StorageHelper.upload_from_stream` (lines 525-550): canonicalize
`dest_path`, run the retry loop `for i in range(max(1, retries))`; when
`last_ex` survives the loop it is raised (modelled as `.error` carrying
the index of the last failed attempt), otherwise the canonicalized
`dest_path` is returned. -/
def upload_from_stream (osSep : Char) (rules : List PathSubstitutionRule)
    (fails : Nat → Bool) (endPos : Nat → Nat) (seekable : Bool)
    (startPos : Nat) (dest_path : Str) (retries : Nat) :
    List Nat × Except Nat Str :=
  let dest := canonize_url osSep rules dest_path
  let r := uploadAttempts fails endPos seekable 0 (max 1 retries) startPos
  (r.1,
   match r.2 with
   | some _ => .ok dest
   | none => .error (max 1 retries - 1))

/-! Section: `_do_upload` (helper.py lines 897-935). -/

/-- Observable events of one `_do_upload` call: invocations of the
caller-supplied progress callback `cb` and the individual upload
attempts of the retry loop. -/
inductive UpEv where
  | cbNull
  | attempt (i : Nat)
  | cbFalse
  | cbDest (d : Str)
deriving DecidableEq, Repr

/-- The attempts performed by the retry loop of `_do_upload`
(lines 911-917): attempt `i` is performed; on failure the loop
continues, on success it `break`s. -/
def uploadLoopEvents (fails : Nat → Bool) : Nat → Nat → List UpEv
  | _, 0 => []
  | i, fuel + 1 =>
    if fails i then UpEv.attempt i :: uploadLoopEvents fails (i + 1) fuel
    else [UpEv.attempt i]

/-- Index of the first successful attempt of the retry loop, `none` when
every iteration failed (`last_ex` survives the loop). -/
def firstSuccessIdx (fails : Nat → Bool) : Nat → Nat → Option Nat
  | _, 0 => none
  | i, fuel + 1 =>
    if fails i then firstSuccessIdx fails (i + 1) fuel else some i

/-- Model of `StorageHelper._do_upload` (lines 897-935) with the driver call
abstracted by `fails`.  If a callback was supplied (`cbPresent`) it is
called with `None` before the retry loop; after the loop, on failure
`cb(False)` is called and `last_ex` is raised (modelled as `.error` with
the index of the last failed attempt — when no callback was supplied the
unguarded `cb(False)` raises a `TypeError` that is caught and logged, so
no invocation is recorded); on success `cb(dest_path)` is called and
`dest_path` returned. -/
def do_upload (fails : Nat → Bool) (cbPresent : Bool) (dest_path : Str)
    (retries : Nat) : List UpEv × Except Nat Str :=
  let hd := if cbPresent then [UpEv.cbNull] else []
  let n := max 1 retries
  let evs := uploadLoopEvents fails 0 n
  match firstSuccessIdx fails 0 n with
  | none =>
    (hd ++ evs ++ (if cbPresent then [UpEv.cbFalse] else []), .error (n - 1))
  | some _ =>
    (hd ++ evs ++ (if cbPresent then [UpEv.cbDest dest_path] else []), .ok dest_path)


/-! Section: `download_to_file` (helper.py lines 601-722), `_get_object`
(lines 937-945) and the driver classes (lines 84-126 and onward). -/

/-- Filesystem and driver events observable during one
`download_to_file` call. -/
inductive FsEv where
  | fetch
  | pushDownload (target : Str)
  | pullStream (target : Str)
  | write (path : Str)
  | remove (path : Str)
  | rename (src dst : Str)
deriving DecidableEq, Repr

/-- Outcome of the driver's `get_object` call made inside
`StorageHelper._get_object` (line 940). -/
inductive DriverGetObject where
  | connError
  | otherError
  | ok
deriving DecidableEq, Repr

/-- Model of `StorageHelper._get_object` (lines 937-945): a
`requests` `ConnectionError` from the driver is converted into
`DownloadError` and raised (modelled as `.error ()`); any other
exception is logged and `None` is returned; otherwise the object handle
is returned. -/
def get_object (r : DriverGetObject) : Except Unit (Option Unit) :=
  match r with
  | .connError => .error ()
  | .otherError => .ok none
  | .ok => .ok (some ())

/-- The five concrete driver classes shipped in the module. -/
inductive DriverKind where
  | http
  | s3
  | gs
  | azure
  | file
deriving DecidableEq, Repr

/-- The abstract methods declared by `_Driver` (lines 84-126). -/
def driverAbstractMethods : List String :=
  ["get_container", "test_upload", "upload_object_via_stream",
   "list_container_objects", "get_direct_access", "download_object",
   "download_object_as_stream", "delete_object", "upload_object", "get_object"]

/-- The methods each concrete driver class defines in its class body
(`_HttpDriver` line 948, `_Boto3Driver` line 1147,
`_GoogleCloudStorageDriver` line 1398, `_AzureBlobServiceStorageDriver`
line 1519, `_FileStorageDriver` line 1713). -/
def driverMethods : DriverKind → List String
  | .http =>
    ["__init__", "get_container", "upload_object_via_stream",
     "list_container_objects", "delete_object", "get_object",
     "download_object_as_stream", "download_object", "get_direct_access",
     "test_upload", "upload_object"]
  | .s3 =>
    ["__init__", "_get_stream_download_pool", "get_container",
     "upload_object_via_stream", "upload_object", "list_container_objects",
     "delete_object", "get_object", "download_object_as_stream",
     "download_object", "_test_bucket_config", "_get_bucket_region",
     "get_direct_access", "test_upload"]
  | .gs =>
    ["_get_stream_download_pool", "get_container", "upload_object_via_stream",
     "upload_object", "list_container_objects", "delete_object", "get_object",
     "download_object_as_stream", "download_object", "test_upload",
     "get_direct_access"]
  | .azure =>
    ["get_container", "upload_object_via_stream", "upload_object",
     "list_container_objects", "delete_object", "get_object",
     "download_object_as_stream", "download_object", "test_upload",
     "_blob_name_from_object_path", "get_direct_access"]
  | .file =>
    ["__init__", "_make_path", "_check_container_name", "_make_container",
     "_make_object", "iterate_containers", "_get_objects",
     "iterate_container_objects", "get_container", "get_container_cdn_url",
     "get_object", "get_object_cdn_url", "download_object",
     "download_object_as_stream", "upload_object", "upload_object_via_stream",
     "delete_object", "create_container", "delete_container",
     "list_container_objects", "_read_in_chunks", "get_direct_access",
     "test_upload"]

/-- The branch test `hasattr(self._driver, 'download_object')` of
`download_to_file` (line 670). -/
def usesPushDownload (k : DriverKind) : Bool :=
  decide ("download_object" ∈ driverMethods k)

/-- Behaviour of the transfer phase of one `download_to_file` call
(lines 669-692), abstracting the driver: how many chunks were written to
the target path the orchestrator passed, whether the transfer raised
after those writes (this also covers a `None` stream, line 679-680, and
a failing `stat`), and `Path(temp_local_path).stat().st_size` when it
completed. -/
structure TransferBehavior where
  chunks : Nat
  raises : Bool
  size : Nat
deriving DecidableEq, Repr

/-- `StorageHelper._temp_download_suffix` (line 133). -/
def temp_download_suffix : Str := lit ".partially"

/-- The temp-file name built at line 640:
`'{}_{}{}'.format(local_path, time(), self._temp_download_suffix)`,
with `timestamp` standing for the rendering of `time()`. -/
def tempLocalPath (local_path timestamp : Str) : Str :=
  local_path ++ lit "_" ++ timestamp ++ temp_download_suffix

/-- Model of `StorageHelper.download_to_file` (lines 601-722).  The
environment is abstracted by: `direct_access` — the driver's
`get_direct_access(remote_path)` result (line 621); `local_exists` —
`Path(local_path).is_file()` (line 629); `getObj` — the driver call
outcome inside `_get_object` (line 641); `trb` — the transfer behaviour;
`posix` — `os.name == 'posix'` (line 699).  The result is the list of
events performed and the returned value: `.error ()` models a
propagating `DownloadError`, `.ok none` a logged `None` return. -/
def download_to_file (driver : DriverKind) (direct_access : Option Str)
    (local_exists : Bool) (getObj : DriverGetObject) (trb : TransferBehavior)
    (posix : Bool) (local_path timestamp : Str)
    (overwrite_existing delete_on_failure : Bool) :
    List FsEv × Except Unit (Option Str) :=
  match direct_access with
  | some p => ([], .ok (some p))
  | none =>
    if !overwrite_existing && local_exists then ([], .ok (some local_path))
    else
      let temp := tempLocalPath local_path timestamp
      match get_object getObj with
      | .error _ => ([FsEv.fetch], .error ())
      | .ok none => ([FsEv.fetch], .ok none)
      | .ok (some _) =>
        let branchEv := if usesPushDownload driver
          then FsEv.pushDownload temp else FsEv.pullStream temp
        let writes := List.replicate trb.chunks (FsEv.write temp)
        let cleanup := if delete_on_failure then [FsEv.remove temp] else []
        if trb.raises then
          (FsEv.fetch :: branchEv :: (writes ++ cleanup), .ok none)
        else if trb.size = 0 then
          (FsEv.fetch :: branchEv :: (writes ++ cleanup), .ok none)
        else
          (FsEv.fetch :: branchEv ::
            (writes ++ (if posix then [] else [FsEv.remove local_path]) ++
              [FsEv.rename temp local_path]),
           .ok (some local_path))

/-! Section: `conform_url` (lines 838-858), `get` (lines 239-267) and
`list` (lines 564-599). -/

/-- Model of `StorageHelper.conform_url` (lines 838-858).  `absFn`
abstracts `str(Path(folder_uri).absolute())` (its value depends on the
process working directory); `resolveFn` abstracts
`cls._resolve_base_url(folder_uri)`, which is consulted only when the
passed `base_url` is falsy (the empty string).  A raised `ValueError`
is modelled as `.error ()`. -/
def conform_url (absFn resolveFn : Str → Str) (folder_uri base_url : Str) :
    Except Unit Str :=
  if folder_uri = [] then .ok folder_uri
  else
    let _base_url := if base_url = [] then resolveFn folder_uri else base_url
    if _base_url.isPrefixOf folder_uri then .ok folder_uri
    else if _base_url = lit "file://" then
      let f := absFn folder_uri
      if (lit "/").isPrefixOf f then .ok (_base_url ++ f)
      else .ok (_base_url ++ lit "/" ++ f)
    else .error ()

/-- Model of `StorageHelper.get` (lines 239-267) for one url, after the
canonicalization and base-url resolution that precede the `try`: the
`(base_url, thread ident)` cache lookup is abstracted to `cached`,
`__force_create` to `force_create`, and the `cls(...)` constructor call
to its outcome `construct` (`.error` when the constructor raises).  The
`except Exception` handler logs and returns `None`. -/
def get_helper {α : Type} (cached : Option α) (force_create : Bool)
    (construct : Except Unit α) : Option α :=
  if cached.isSome && !force_create then cached
  else
    match construct with
    | .error _ => none
    | .ok inst => some inst

/-- Python `s.lstrip('/')`: drop every leading `/`. -/
def lstripSlash : Str → Str
  | [] => []
  | c :: cs => if c = '/' then lstripSlash cs else c :: cs

/-- The effective filter prefix of `StorageHelper.list` (lines 585-586):
when the passed prefix starts with the helper's base url, that base-url
portion is stripped and leading slashes removed. -/
def listEffectivePrefix (base_url pfx : Str) : Str :=
  if base_url.isPrefixOf pfx then lstripSlash (pfx.drop base_url.length) else pfx

/-- Model of `StorageHelper.list` (lines 564-599): with a truthy
(non-empty) prefix, the names returned by the driver
(`list_container_objects`, whether the `ex_prefix` overload or the
`TypeError` fallback without it — `driverNames` abstracts either
response) are filtered to those that start with the effective prefix and
are not equal to it; with no prefix every driver name is returned. -/
def list_objects (base_url : Str) (driverNames : List Str) (pfx : Str) :
    List Str :=
  if pfx = [] then driverNames
  else
    let p := listEffectivePrefix base_url pfx
    driverNames.filter (fun n => p.isPrefixOf n && !(n == p))

theorem apply_url_substitutions_no_match (osSep : Char)
    (rules : List PathSubstitutionRule) (url : Str)
    (h : ∀ r ∈ rules, ¬ r.registered_prefix.isPrefixOf url) :
    apply_url_substitutions osSep rules url = url := by
  induction rules with
  | nil => rfl
  | cons r rs ih =>
    have hr := h r (List.mem_cons_self r rs)
    simp only [apply_url_substitutions, if_neg hr]
    exact ih (fun q hq => h q (List.mem_cons_of_mem r hq))

theorem apply_url_substitutions_first_match (osSep : Char)
    (rules : List PathSubstitutionRule) (url : Str) (r : PathSubstitutionRule)
    (h : rules.find? (fun q => q.registered_prefix.isPrefixOf url) = some r) :
    apply_url_substitutions osSep rules url = applyRule osSep r url := by
  induction rules with
  | nil => simp at h
  | cons q rs ih =>
    by_cases hq : q.registered_prefix.isPrefixOf url
    · rw [List.find?_cons_of_pos] at h
      · simp only [Option.some.injEq] at h
        subst h
        simp [apply_url_substitutions, hq]
      · simpa using hq
    · rw [List.find?_cons_of_neg] at h
      · simp only [apply_url_substitutions, if_neg hq]
        exact ih h
      · simpa using hq

theorem applyRule_eq (osSep : Char) (r : PathSubstitutionRule) (url : Str) :
    applyRule osSep r url =
      r.local_prefix ++ ruleSepTranslate osSep r (url.drop r.registered_prefix.length) := by
  unfold applyRule ruleSepTranslate replace_separator
  cases hw : r.replace_windows_sep <;> cases hl : r.replace_linux_sep <;>
    simp [List.take_left, List.drop_left]

/-- C4: canonicalization applies only the first rule (in registration
order) whose `registered_prefix` is a string prefix of the url; it
replaces that prefix exactly once with `local_prefix`, applies the
optional separator translation only to the part after the replaced
prefix (the replaced prefix itself is untouched), never applies a second
rule or recurses (the result is exactly `local_prefix ++ translated
remainder`), and returns the url unchanged when no rule matches. -/
theorem canonize_first_match_prefix_replace (osSep : Char)
    (rules : List PathSubstitutionRule) (url : Str) :
    ((∀ r ∈ rules, ¬ r.registered_prefix.isPrefixOf url) →
        apply_url_substitutions osSep rules url = url) ∧
    (∀ r, rules.find? (fun q => q.registered_prefix.isPrefixOf url) = some r →
        apply_url_substitutions osSep rules url =
          r.local_prefix ++
            ruleSepTranslate osSep r (url.drop r.registered_prefix.length)) := by
  refine ⟨fun h => apply_url_substitutions_no_match osSep rules url h, fun r h => ?_⟩
  rw [apply_url_substitutions_first_match osSep rules url r h, applyRule_eq]

theorem uploadAttempts_length_le (fails : Nat → Bool) (endPos : Nat → Nat)
    (seekable : Bool) (i fuel pos : Nat) :
    (uploadAttempts fails endPos seekable i fuel pos).1.length ≤ fuel := by
  induction fuel generalizing i pos with
  | zero => simp [uploadAttempts]
  | succ fuel ih =>
    by_cases h : fails i
    · simpa [uploadAttempts, h] using ih (i + 1) (if seekable then 0 else endPos i)
    · simp [uploadAttempts, h]

theorem uploadAttempts_all_zero (fails : Nat → Bool) (endPos : Nat → Nat)
    (i fuel : Nat) :
    ∀ x ∈ (uploadAttempts fails endPos true i fuel 0).1, x = 0 := by
  induction fuel generalizing i with
  | zero => simp [uploadAttempts]
  | succ fuel ih =>
    by_cases h : fails i
    · intro x hx
      simp only [uploadAttempts, h, if_pos, List.mem_cons] at hx
      rcases hx with hx | hx
      · exact hx
      · exact ih (i + 1) x (by simpa using hx)
    · simp [uploadAttempts, h]

theorem uploadAttempts_tail_zero (fails : Nat → Bool) (endPos : Nat → Nat)
    (i fuel pos : Nat) :
    ∀ x ∈ (uploadAttempts fails endPos true i fuel pos).1.tail, x = 0 := by
  cases fuel with
  | zero => simp [uploadAttempts]
  | succ fuel =>
    by_cases h : fails i
    · intro x hx
      simp only [uploadAttempts, h, if_pos, List.tail_cons] at hx
      exact uploadAttempts_all_zero fails endPos (i + 1) fuel x (by simpa using hx)
    · simp [uploadAttempts, h]

theorem uploadAttempts_all_fail (fails : Nat → Bool) (endPos : Nat → Nat)
    (seekable : Bool) (i fuel pos : Nat)
    (h : ∀ j, i ≤ j → j < i + fuel → fails j = true) :
    (uploadAttempts fails endPos seekable i fuel pos).1.length = fuel ∧
      (uploadAttempts fails endPos seekable i fuel pos).2 = none := by
  induction fuel generalizing i pos with
  | zero => simp [uploadAttempts]
  | succ fuel ih =>
    have hi : fails i = true := h i (Nat.le_refl i) (by omega)
    have := ih (i + 1) (if seekable then 0 else endPos i)
      (fun j h1 h2 => h j (by omega) (by omega))
    simp only [uploadAttempts, hi, if_pos, List.length_cons]
    exact ⟨by omega, this.2⟩

theorem uploadAttempts_first_success (fails : Nat → Bool) (endPos : Nat → Nat)
    (seekable : Bool) (j : Nat) :
    ∀ i fuel pos, j < fuel → fails (i + j) = false →
      (∀ k, k < j → fails (i + k) = true) →
      (uploadAttempts fails endPos seekable i fuel pos).1.length = j + 1 ∧
        (uploadAttempts fails endPos seekable i fuel pos).2 = some (i + j) := by
  induction j with
  | zero =>
    intro i fuel pos hf hs _
    obtain ⟨fuel', rfl⟩ : ∃ f, fuel = f + 1 := ⟨fuel - 1, by omega⟩
    simp only [Nat.add_zero] at hs
    simp [uploadAttempts, hs]
  | succ j ih =>
    intro i fuel pos hf hs hk
    obtain ⟨fuel', rfl⟩ : ∃ f, fuel = f + 1 := ⟨fuel - 1, by omega⟩
    have hi : fails i = true := by simpa using hk 0 (Nat.succ_pos j)
    have := ih (i + 1) fuel' (if seekable then 0 else endPos i) (by omega)
      (by simpa [Nat.add_assoc, Nat.add_comm 1 j] using hs)
      (fun k hkj => by
        have := hk (k + 1) (by omega)
        simpa [Nat.add_assoc, Nat.add_comm 1 k] using this)
    simp only [uploadAttempts, hi, if_pos, List.length_cons]
    refine ⟨by omega, ?_⟩
    rw [this.2]
    ring_nf

/-- C3: `upload_from_stream` with `retries = N` attempts the upload up
to `max(1, N)` times; after each failed attempt the stream is reset to
offset 0 when it is seekable (every attempt after the first starts at
position 0); if every attempt fails the last error is raised; and if
attempt `j` is the first to succeed, the (canonicalized) destination
path is returned and exactly `j + 1` attempts are made. -/
theorem upload_from_stream_retry_contract (osSep : Char)
    (rules : List PathSubstitutionRule) (fails : Nat → Bool) (endPos : Nat → Nat)
    (seekable : Bool) (startPos : Nat) (dest_path : Str) (N : Nat) :
    (upload_from_stream osSep rules fails endPos seekable startPos dest_path N).1.length
        ≤ max 1 N ∧
    (seekable = true →
      ∀ x ∈ (upload_from_stream osSep rules fails endPos seekable startPos
              dest_path N).1.tail, x = 0) ∧
    ((∀ i, i < max 1 N → fails i = true) →
      (upload_from_stream osSep rules fails endPos seekable startPos dest_path N).1.length
          = max 1 N ∧
      (upload_from_stream osSep rules fails endPos seekable startPos dest_path N).2
          = .error (max 1 N - 1)) ∧
    (∀ j, j < max 1 N → fails j = false → (∀ k, k < j → fails k = true) →
      (upload_from_stream osSep rules fails endPos seekable startPos dest_path N).1.length
          = j + 1 ∧
      (upload_from_stream osSep rules fails endPos seekable startPos dest_path N).2
          = .ok (canonize_url osSep rules dest_path)) := by
  refine ⟨?_, ?_, ?_, ?_⟩
  · exact uploadAttempts_length_le fails endPos seekable 0 (max 1 N) startPos
  · rintro rfl
    exact uploadAttempts_tail_zero fails endPos 0 (max 1 N) startPos
  · intro h
    have := uploadAttempts_all_fail fails endPos seekable 0 (max 1 N) startPos
      (fun j _ h2 => h j (by omega))
    refine ⟨this.1, ?_⟩
    simp only [upload_from_stream, this.2]
  · intro j hj hs hk
    have := uploadAttempts_first_success fails endPos seekable j 0 (max 1 N) startPos hj
      (by simpa using hs) (fun k hkj => by simpa using hk k hkj)
    refine ⟨this.1, ?_⟩
    simp only [upload_from_stream, this.2]

/-- Witness for C3: a stream upload that fails attempts 0 and 1 and
succeeds on attempt 2, with a seekable stream starting at position 5 and
`retries = 3`: exactly 3 attempts are made and the destination path is
returned. -/
theorem upload_from_stream_retry_contract_witness :
    (upload_from_stream '/' [] (fun i => decide (i < 2)) (fun _ => 7) true 5
        (lit "s3://bucket/x") 3).1.length = 2 + 1 ∧
    (upload_from_stream '/' [] (fun i => decide (i < 2)) (fun _ => 7) true 5
        (lit "s3://bucket/x") 3).2
      = .ok (canonize_url '/' [] (lit "s3://bucket/x")) :=
  (upload_from_stream_retry_contract '/' [] (fun i => decide (i < 2)) (fun _ => 7)
      true 5 (lit "s3://bucket/x") 3).2.2.2 2 (by decide) (by decide)
      (fun k hk => by simp at hk ⊢; omega)

theorem uploadLoopEvents_all_attempts (fails : Nat → Bool) (i fuel : Nat) :
    ∀ e ∈ uploadLoopEvents fails i fuel, ∃ k, e = UpEv.attempt k := by
  induction fuel generalizing i with
  | zero => simp [uploadLoopEvents]
  | succ fuel ih =>
    by_cases h : fails i
    · intro e he
      simp only [uploadLoopEvents, h, if_pos, List.mem_cons] at he
      rcases he with he | he
      · exact ⟨i, he⟩
      · exact ih (i + 1) e he
    · simp [uploadLoopEvents, h]

/-- C5: when a progress callback is supplied, `_do_upload` invokes it
first with `None`, before any transfer attempt (the very first event is
`cbNull`); on success it is invoked exactly once with the destination
path, which is also the returned value, as the final event; on failure
it is invoked with `False` as the final event before the exception
propagates (the result is `.error`). -/
theorem do_upload_callback_protocol (fails : Nat → Bool) (dest_path : Str)
    (retries : Nat) :
    (do_upload fails true dest_path retries).1.head? = some UpEv.cbNull ∧
    (∀ j, firstSuccessIdx fails 0 (max 1 retries) = some j →
      (do_upload fails true dest_path retries).2 = .ok dest_path ∧
      (do_upload fails true dest_path retries).1.getLast? = some (UpEv.cbDest dest_path) ∧
      (do_upload fails true dest_path retries).1.count (UpEv.cbDest dest_path) = 1) ∧
    (firstSuccessIdx fails 0 (max 1 retries) = none →
      (do_upload fails true dest_path retries).2 = .error (max 1 retries - 1) ∧
      (do_upload fails true dest_path retries).1.getLast? = some UpEv.cbFalse) := by
  have hcount : (uploadLoopEvents fails 0 (max 1 retries)).count (UpEv.cbDest dest_path) = 0 := by
    rw [List.count_eq_zero]
    intro hmem
    obtain ⟨k, hk⟩ := uploadLoopEvents_all_attempts fails 0 (max 1 retries) _ hmem
    exact UpEv.noConfusion hk
  have hlast : ∀ (evs : List UpEv) (x : UpEv),
      (UpEv.cbNull :: (evs ++ [x])).getLast? = some x := by
    intro evs x
    rw [← List.cons_append, List.getLast?_append_cons]
    rfl
  refine ⟨?_, ?_, ?_⟩
  · unfold do_upload
    cases h : firstSuccessIdx fails 0 (max 1 retries) <;> simp [h]
  · intro j hj
    simp only [do_upload, hj]
    refine ⟨trivial, hlast _ _, ?_⟩
    simp [List.count_cons, List.count_append, hcount]
  · intro hj
    simp only [do_upload, hj]
    exact ⟨trivial, hlast _ _⟩

/-- Witness for C5: an upload that succeeds on the first attempt with a
callback supplied: the callback trace is `[cbNull, attempt 0, cbDest]`
— starts with `None`, ends with exactly one destination-path call — and
the destination path is returned. -/
theorem do_upload_callback_protocol_witness :
    (do_upload (fun _ => false) true (lit "s3://bucket/y") 1).1.head?
        = some UpEv.cbNull ∧
    (do_upload (fun _ => false) true (lit "s3://bucket/y") 1).2
        = .ok (lit "s3://bucket/y") ∧
    (do_upload (fun _ => false) true (lit "s3://bucket/y") 1).1.getLast?
        = some (UpEv.cbDest (lit "s3://bucket/y")) :=
  have h := do_upload_callback_protocol (fun _ => false) (lit "s3://bucket/y") 1
  have h2 := h.2.1 0 (by decide)
  ⟨h.1, h2.1, h2.2.1⟩

/-- Witness for C4: the spec's concrete scenario.  Registering the rule
`s3://old-bucket → s3://new-bucket` (no separator flags) and
canonicalizing `s3://old-bucket/dir/file.txt` yields
`s3://new-bucket/dir/file.txt`. -/
theorem canonize_first_match_prefix_replace_witness :
    apply_url_substitutions '/'
        [⟨lit "s3://old-bucket", lit "s3://new-bucket", false, false⟩]
        (lit "s3://old-bucket/dir/file.txt") = lit "s3://new-bucket/dir/file.txt" := by
  have h := (canonize_first_match_prefix_replace '/'
      [⟨lit "s3://old-bucket", lit "s3://new-bucket", false, false⟩]
      (lit "s3://old-bucket/dir/file.txt")).2
      ⟨lit "s3://old-bucket", lit "s3://new-bucket", false, false⟩ (by decide)
  rw [h]
  decide

theorem usesPushDownload_true (k : DriverKind) : usesPushDownload k = true := by
  cases k <;> rfl

theorem tempLocalPath_ne (local_path timestamp : Str) :
    tempLocalPath local_path timestamp ≠ local_path := by
  intro h
  have hlen := congrArg List.length h
  have h1 : (lit "_").length = 1 := rfl
  have h2 : (temp_download_suffix).length = 10 := rfl
  simp only [tempLocalPath, List.length_append, h1, h2] at hlen
  omega

/-- C1: in every `download_to_file` call, the transfer writes bytes only
to the sibling temp file named `{local_path}_{timestamp}.partially` --
a different path from `local_path` -- and both driver download styles are
pointed at that temp path; the only rename ever performed is the temp
file onto `local_path`, it happens only when the call returns
`local_path` with a completed transfer of nonzero size (the size check
succeeded); and on non-POSIX systems the destination is removed
immediately before that rename. -/
theorem download_temp_file_discipline (driver : DriverKind)
    (direct_access : Option Str) (local_exists : Bool) (getObj : DriverGetObject)
    (trb : TransferBehavior) (posix : Bool) (local_path timestamp : Str)
    (overwrite_existing delete_on_failure : Bool) :
    tempLocalPath local_path timestamp ≠ local_path ∧
    (∀ q, FsEv.write q ∈ (download_to_file driver direct_access local_exists getObj
        trb posix local_path timestamp overwrite_existing delete_on_failure).1 →
      q = tempLocalPath local_path timestamp) ∧
    (∀ q, FsEv.pushDownload q ∈ (download_to_file driver direct_access local_exists
        getObj trb posix local_path timestamp overwrite_existing delete_on_failure).1 →
      q = tempLocalPath local_path timestamp) ∧
    (∀ q, FsEv.pullStream q ∈ (download_to_file driver direct_access local_exists
        getObj trb posix local_path timestamp overwrite_existing delete_on_failure).1 →
      q = tempLocalPath local_path timestamp) ∧
    (∀ a b, FsEv.rename a b ∈ (download_to_file driver direct_access local_exists
        getObj trb posix local_path timestamp overwrite_existing delete_on_failure).1 →
      a = tempLocalPath local_path timestamp ∧ b = local_path ∧
      (download_to_file driver direct_access local_exists getObj trb posix
        local_path timestamp overwrite_existing delete_on_failure).2
          = .ok (some local_path) ∧
      trb.raises = false ∧ trb.size ≠ 0) ∧
    (posix = false → ∀ a b, FsEv.rename a b ∈ (download_to_file driver direct_access
        local_exists getObj trb posix local_path timestamp overwrite_existing
        delete_on_failure).1 →
      ∃ pre, (download_to_file driver direct_access local_exists getObj trb posix
          local_path timestamp overwrite_existing delete_on_failure).1
        = pre ++ [FsEv.remove local_path,
            FsEv.rename (tempLocalPath local_path timestamp) local_path]) := by
  refine ⟨tempLocalPath_ne _ _, ?_, ?_, ?_, ?_, ?_⟩ <;>
  · rcases direct_access with _ | p <;>
      cases overwrite_existing <;> cases local_exists <;>
      rcases getObj with _ | _ | _ <;>
      obtain ⟨chunks, raises, size⟩ := trb <;>
      cases raises <;> rcases size with _ | sz <;>
      cases posix <;> cases delete_on_failure <;>
      first
        | (simp [download_to_file, get_object, usesPushDownload_true,
             List.mem_replicate, tempLocalPath_ne]
           done)
        | (intro _ a b _
           simp [download_to_file, get_object, usesPushDownload_true]
           exact ⟨FsEv.fetch ::
               FsEv.pushDownload (tempLocalPath local_path timestamp) ::
               List.replicate chunks (FsEv.write (tempLocalPath local_path timestamp)),
             by simp⟩)

/-- Witness for C1: a concrete successful download on a non-POSIX
system: the temp path differs from the destination, the call returns the
destination path, and the rename of the temp file is in the trace. -/
theorem download_temp_file_discipline_witness :
    tempLocalPath (lit "/tmp/f") (lit "123") ≠ lit "/tmp/f" ∧
    (download_to_file DriverKind.s3 none false DriverGetObject.ok ⟨3, false, 5⟩
        false (lit "/tmp/f") (lit "123") false true).2
      = .ok (some (lit "/tmp/f")) :=
  have h := download_temp_file_discipline DriverKind.s3 none false
    DriverGetObject.ok ⟨3, false, 5⟩ false (lit "/tmp/f") (lit "123") false true
  ⟨h.1, (h.2.2.2.2.1 (tempLocalPath (lit "/tmp/f") (lit "123")) (lit "/tmp/f")
      (by decide)).2.2.1⟩

/-- C2: restricted to calls that get past the direct-access and
skip-existing short circuits (so a fetch is attempted): when the object
was fetched but the transfer raised, or completed with a zero-byte temp
file, `download_to_file` returns `None` instead of propagating, removing
the temp file exactly when `delete_on_failure` is set; and a
`DownloadError` (the conversion of a `ConnectionError` inside
`_get_object`) always propagates to the caller. -/
theorem download_failure_returns_none (driver : DriverKind) (local_exists : Bool)
    (getObj : DriverGetObject) (trb : TransferBehavior) (posix : Bool)
    (local_path timestamp : Str) (overwrite_existing delete_on_failure : Bool)
    (hskip : (!overwrite_existing && local_exists) = false) :
    (getObj = DriverGetObject.ok → trb.raises = true ∨ trb.size = 0 →
      (download_to_file driver none local_exists getObj trb posix local_path
          timestamp overwrite_existing delete_on_failure).2 = .ok none ∧
      (delete_on_failure = true →
        FsEv.remove (tempLocalPath local_path timestamp) ∈
          (download_to_file driver none local_exists getObj trb posix local_path
            timestamp overwrite_existing delete_on_failure).1) ∧
      (delete_on_failure = false →
        ∀ q, FsEv.remove q ∉
          (download_to_file driver none local_exists getObj trb posix local_path
            timestamp overwrite_existing delete_on_failure).1)) ∧
    (getObj = DriverGetObject.connError →
      (download_to_file driver none local_exists getObj trb posix local_path
          timestamp overwrite_existing delete_on_failure).2 = .error ()) := by
  obtain ⟨chunks, raises, size⟩ := trb
  constructor
  · rintro rfl hf
    have hf' : raises = true ∨ size = 0 := by simpa using hf
    refine ⟨?_, ?_, ?_⟩ <;>
      cases overwrite_existing <;> cases local_exists <;>
        cases delete_on_failure <;> cases raises <;> rcases size with _ | sz <;>
          simp_all [download_to_file, get_object, usesPushDownload_true,
            List.mem_replicate]
  · rintro rfl
    cases overwrite_existing <;> cases local_exists <;>
      simp_all [download_to_file, get_object]

/-- Witness for C2: a transfer that raises after two chunk writes, with
`delete_on_failure = True`: the call returns `None` and the temp file is
removed. -/
theorem download_failure_returns_none_witness :
    (download_to_file DriverKind.gs none false DriverGetObject.ok ⟨2, true, 0⟩
        true (lit "/tmp/g") (lit "7") false true).2 = .ok none ∧
    FsEv.remove (tempLocalPath (lit "/tmp/g") (lit "7")) ∈
      (download_to_file DriverKind.gs none false DriverGetObject.ok ⟨2, true, 0⟩
        true (lit "/tmp/g") (lit "7") false true).1 :=
  have h := (download_failure_returns_none DriverKind.gs false DriverGetObject.ok
    ⟨2, true, 0⟩ true (lit "/tmp/g") (lit "7") false true (by decide)).1 rfl
    (Or.inl rfl)
  ⟨h.1, h.2.1 rfl⟩

/-- C9: with `overwrite_existing = False`, an existing destination file
and no direct-access path, `download_to_file` performs no event at all
(no fetch of the remote object, no write, no rename — the existing file
is untouched) and returns `local_path`. -/
theorem download_skip_existing (driver : DriverKind) (getObj : DriverGetObject)
    (trb : TransferBehavior) (posix : Bool) (local_path timestamp : Str)
    (delete_on_failure : Bool) :
    download_to_file driver none true getObj trb posix local_path timestamp
        false delete_on_failure = ([], .ok (some local_path)) := by
  simp [download_to_file]

/-- C10: `download_object` is declared by the abstract `_Driver`
interface and defined by every concrete driver class in the module, so
the `hasattr(self._driver, 'download_object')` test always selects the
push-style callback branch of `download_to_file`, and the pull-style
chunk-copy fallback branch is unreachable in every call, whatever the
driver. -/
theorem drivers_always_push_download :
    "download_object" ∈ driverAbstractMethods ∧
    (∀ k, "download_object" ∈ driverMethods k) ∧
    (∀ k, usesPushDownload k = true) ∧
    (∀ driver direct_access local_exists getObj trb posix local_path timestamp
        overwrite_existing delete_on_failure q,
      FsEv.pullStream q ∉ (download_to_file driver direct_access local_exists
          getObj trb posix local_path timestamp overwrite_existing
          delete_on_failure).1) := by
  refine ⟨by decide, fun k => by cases k <;> decide, usesPushDownload_true, ?_⟩
  intro driver direct_access local_exists getObj trb posix lp ts ow del q
  rcases direct_access with _ | p <;>
    cases ow <;> cases local_exists <;>
    rcases getObj with _ | _ | _ <;>
    obtain ⟨chunks, raises, size⟩ := trb <;>
    cases raises <;> rcases size with _ | sz <;>
    cases posix <;> cases del <;>
    simp [download_to_file, get_object, usesPushDownload_true, List.mem_replicate]

/-- Witness for C10: the pull-style branch event never occurs in a
concrete call with the filesystem driver. -/
theorem drivers_always_push_download_witness :
    FsEv.pullStream (lit "t") ∉
      (download_to_file DriverKind.file none false DriverGetObject.ok ⟨1, false, 3⟩
        true (lit "/a") (lit "1") true true).1 :=
  drivers_always_push_download.2.2.2 DriverKind.file none false DriverGetObject.ok
    ⟨1, false, 3⟩ true (lit "/a") (lit "1") true true (lit "t")

/-- Counterexample for C6 as stated: with an empty `folder_uri` (the
`if not folder_uri: return folder_uri` guard, line 840-841) the function
returns the empty string unchanged, which does not start with the given
base url. -/
theorem conform_url_empty_not_prefixed :
    conform_url id id [] (lit "s3://bucket") = .ok [] ∧
      (lit "s3://bucket").isPrefixOf ([] : Str) = false := by
  constructor <;> rfl

/-- C6 (amended: for non-empty `folder_uri`): every `Ok` result of
`conform_url` starts with `base_url`; when the base url is the
filesystem marker `file://` and the input does not already start with
it, the input is promoted to an absolute path and prefixed with the
scheme (with a `/` joiner when the absolute path does not begin with
one); for every other non-empty base url a non-matching input raises
`ValueError` instead of being reinterpreted. -/
theorem conform_url_contract (absFn resolveFn : Str → Str)
    (folder_uri base_url : Str) (hne : folder_uri ≠ []) :
    (∀ r, conform_url absFn resolveFn folder_uri base_url = .ok r →
      base_url <+: r) ∧
    (base_url ≠ [] → base_url.isPrefixOf folder_uri = false →
      base_url = lit "file://" →
      conform_url absFn resolveFn folder_uri base_url =
        .ok (if (lit "/").isPrefixOf (absFn folder_uri)
          then base_url ++ absFn folder_uri
          else base_url ++ lit "/" ++ absFn folder_uri)) ∧
    (base_url ≠ [] → base_url.isPrefixOf folder_uri = false →
      base_url ≠ lit "file://" →
      conform_url absFn resolveFn folder_uri base_url = .error ()) := by
  refine ⟨?_, ?_, ?_⟩
  · intro r h
    unfold conform_url at h
    rw [if_neg hne] at h
    by_cases hb : base_url = []
    · subst hb
      exact List.nil_prefix
    · simp only [if_neg hb] at h
      split_ifs at h with h1 h2 h3
      · cases h
        exact List.isPrefixOf_iff_prefix.mp h1
      · cases h
        exact List.prefix_append base_url (absFn folder_uri)
      · cases h
        refine (List.prefix_append base_url (lit "/" ++ absFn folder_uri)).trans ?_
        rw [List.append_assoc]
  · intro hb hpf hfile
    unfold conform_url
    rw [if_neg hne, if_neg hb, hfile]
    rw [hfile] at hpf
    simp only [hpf, Bool.false_eq_true, if_false]
    split_ifs <;> simp [List.append_assoc]
  · intro hb hpf hfile
    unfold conform_url
    rw [if_neg hne, if_neg hb]
    simp [hpf, hfile]

/-- Witness for C6: conforming `/data/x` against base `file://` (which
is not a prefix of it) promotes it to `file:///data/x`, which starts
with the base; and conforming a non-matching url against `s3://b`
errors. -/
theorem conform_url_contract_witness :
    conform_url id id (lit "/data/x") (lit "file://")
        = .ok (lit "file:///data/x") ∧
    conform_url id id (lit "/data/x") (lit "s3://b") = .error () := by
  have h1 := (conform_url_contract id id (lit "/data/x") (lit "file://")
    (by decide)).2.1 (by decide) (by decide) rfl
  have h2 := (conform_url_contract id id (lit "/data/x") (lit "s3://b")
    (by decide)).2.2 (by decide) (by decide) (by decide)
  refine ⟨?_, h2⟩
  rw [h1]
  congr 1

/-- C7: on a cache miss (or forced re-creation), `StorageHelper.get`
returns `None` whenever the constructor raises — the exception never
propagates, the model is a total function into `Option` — and the
freshly constructed instance when it succeeds. -/
theorem get_construction_contract {α : Type} (cached : Option α)
    (force_create : Bool) (construct : Except Unit α)
    (h : (cached.isSome && !force_create) = false) :
    (construct = .error () → get_helper cached force_create construct = none) ∧
    (∀ i, construct = .ok i → get_helper cached force_create construct = some i) := by
  constructor
  · rintro rfl
    simp [get_helper, h]
  · rintro i rfl
    simp [get_helper, h]

/-- Witness for C7: a failing constructor on an empty cache yields
`None`; a succeeding one yields the instance. -/
theorem get_construction_contract_witness :
    get_helper (none : Option Nat) false (.error ()) = none ∧
    get_helper (none : Option Nat) false (.ok 7) = some 7 :=
  ⟨(get_construction_contract (none : Option Nat) false (.error ()) rfl).1 rfl,
   (get_construction_contract (none : Option Nat) false (.ok 7) rfl).2 7 rfl⟩

/-- C8: for every non-empty prefix, every name `list` returns starts
with the effective prefix (the prefix after the base-url portion, if
present, is stripped) and no returned name equals that prefix itself,
whatever the driver returned. -/
theorem list_prefix_filter (base_url : Str) (driverNames : List Str)
    (pfx : Str) (hne : pfx ≠ []) :
    ∀ n ∈ list_objects base_url driverNames pfx,
      listEffectivePrefix base_url pfx <+: n ∧
        n ≠ listEffectivePrefix base_url pfx := by
  intro n hn
  unfold list_objects at hn
  rw [if_neg hne] at hn
  have h := List.of_mem_filter hn
  simp only [Bool.and_eq_true, Bool.not_eq_true', beq_eq_false_iff_ne, ne_eq] at h
  exact ⟨ List.isPrefixOf_iff_prefix.mp h.1, h.2⟩

/-- Witness for C8: listing with prefix `s3://base/a/` against base url
`s3://base` keeps exactly the names under `a/` other than `a/` itself. -/
theorem list_prefix_filter_witness :
    (list_objects (lit "s3://base")
        [lit "a/", lit "a/x", lit "b/y", lit "a/y/z"] (lit "s3://base/a/")
      = [lit "a/x", lit "a/y/z"]) ∧
    (listEffectivePrefix (lit "s3://base") (lit "s3://base/a/") <+: lit "a/x" ∧
      lit "a/x" ≠ listEffectivePrefix (lit "s3://base") (lit "s3://base/a/")) :=
  ⟨by decide,
   list_prefix_filter (lit "s3://base")
     [lit "a/", lit "a/x", lit "b/y", lit "a/y/z"] (lit "s3://base/a/")
     (by decide) (lit "a/x") (by decide)⟩

end Storage